import Mathlib

/-
Shallow embedding of the task-store layer of `db_schema.py`
(class `DatabaseManager`): the three sqlite tables `tasks`,
`task_states` and `task_data`, and the four public operations
`create_task`, `update_task_state`, `get_task` and `list_tasks`.

Modelling conventions, each matching the source:
  * Timestamps are TEXT columns "%Y-%m-%d %H:%M:%S" produced by
    `time.strftime`; we model them as epoch seconds (`Nat`), which is
    order- and difference-equivalent: sqlite's `strftime('%s', t)` is a
    strictly monotone bijection from these fixed-width strings onto
    epoch seconds, lexicographic TEXT comparison agrees with numeric
    comparison, and `ROUND` of a difference of whole seconds is that
    integer difference.  Every operation takes the current clock
    reading `now` as an explicit parameter.
  * Python dicts serialized with `json.dumps`/`json.loads` are modelled
    as association lists (`Dict`); `json.loads (json.dumps m) = m`.
    `d[k] = v` on a dict is `dictInsert` (replace in place if the key
    exists, else append).
  * Python truthiness of an `Optional[str]` is `some s` with `s ≠ ""`;
    of an `Optional[Dict]` it is `some l` with `l ≠ []`.
  * A raised sqlite exception that escapes an operation is `Except.error ()`;
    the enclosing transaction is rolled back, so the caller keeps the
    unchanged database value.
  * The `AUTOINCREMENT` id of `task_states` is a counter `next_id`
    carried in the database state.
-/

/-- JSON object / Python dict with string values, as an association list. -/
abbrev Dict := List (String × String)

/-- Python `d.get(k)` / `d[k]` read: value of the first pair with key `k`. -/
def dictGet : Dict → String → Option String
  | [], _ => none
  | p :: rest, k => if p.1 = k then some p.2 else dictGet rest k

/-- Python `d[k] = v`: replace the value in place if `k` is already a key,
else append the new pair at the end (insertion order preserved). -/
def dictInsert (m : Dict) (k v : String) : Dict :=
  if (dictGet m k).isSome then
    m.map (fun p => if p.1 = k then (k, v) else p)
  else
    m ++ [(k, v)]

/-- Python truthiness of `Optional[Dict]` (`bool(error)` / `if error:`). -/
def dictTruthy : Option Dict → Bool
  | none => false
  | some l => !l.isEmpty

/-- Python truthiness of `Optional[str]` (`if result:`). -/
def strTruthy : Option String → Bool
  | none => false
  | some s => s != ""

/-- `error.get('message') if error else None` in `update_task_state`. -/
def errMessage : Option Dict → Option String
  | none => none
  | some l => if l.isEmpty then none else dictGet l "message"

/-- One row of the `tasks` table. -/
structure TaskRow where
  task_id : String
  workflow_id : String
  workflow_name : String
  workflow_version : String
  current_state : String
  completion_state : String
  created_at : Nat
  updated_at : Nat
  creator_id : String
  priority : String
  max_retries : Int
  retry_count : Int
  timeout_seconds : Int
  is_complete : Bool
  has_error : Bool
deriving DecidableEq, Repr

/-- One row of the `task_states` table (state-transition history). -/
structure StateEventRow where
  id : Nat
  task_id : String
  state_name : String
  entered_at : Nat
  exited_at : Option Nat
  duration_seconds : Option Int
  result : Option String
  has_error : Bool
  error_message : Option String
deriving DecidableEq, Repr

/-- One row of the `task_data` table (payload). -/
structure TaskDataRow where
  task_id : String
  prompt : String
  context : String
  parameters : Dict
  results : Dict
  next_states : List String
  error_details : Option Dict
deriving DecidableEq, Repr

/-- The whole sqlite database of `DatabaseManager`. -/
structure DB where
  tasks : List TaskRow
  task_states : List StateEventRow
  task_data : List TaskDataRow
  next_id : Nat
deriving DecidableEq, Repr

/-- The freshly created database (`_create_tables` on a new file). -/
def DB.empty : DB := { tasks := [], task_states := [], task_data := [], next_id := 0 }

/-- The nested `task_data['workflow']` dict passed to `create_task`. -/
structure WorkflowInfo where
  name : Option String := none
  version : Option String := none
  completion_state : Option String := none
  next_states : Option (List String) := none
deriving DecidableEq, Repr

/-- The nested `task_data['metadata']` dict passed to `create_task`. -/
structure TaskMeta where
  creator_id : Option String := none
  priority : Option String := none
  max_retries : Option Int := none
  timeout_seconds : Option Int := none
deriving DecidableEq, Repr

/-- The nested `task_data['data']` dict passed to `create_task`. -/
structure DataInput where
  prompt : Option String := none
  context : Option String := none
  parameters : Option Dict := none
  results : Option Dict := none
deriving DecidableEq, Repr

/-- The `task_data` argument of `create_task` (`.get` fields optional;
`task_id`, `workflow_id` and `state` are required NOT NULL columns). -/
structure TaskInput where
  task_id : String
  workflow_id : String
  state : String
  workflow : Option WorkflowInfo := none
  metadata : Option TaskMeta := none
  data : Option DataInput := none
  error : Option Dict := none
deriving DecidableEq, Repr

/-- The `tasks` row inserted by `create_task` (columns and `.get`
defaults as in the first INSERT; `retry_count`, `is_complete` and
`has_error` take their schema defaults). -/
def createdTaskRow (inp : TaskInput) (now : Nat) : TaskRow :=
  { task_id := inp.task_id
    workflow_id := inp.workflow_id
    workflow_name := (inp.workflow.getD {}).name.getD "unknown"
    workflow_version := (inp.workflow.getD {}).version.getD "1.0"
    current_state := inp.state
    completion_state := (inp.workflow.getD {}).completion_state.getD "completion"
    created_at := now
    updated_at := now
    creator_id := (inp.metadata.getD {}).creator_id.getD "system"
    priority := (inp.metadata.getD {}).priority.getD "normal"
    max_retries := (inp.metadata.getD {}).max_retries.getD 3
    retry_count := 0
    timeout_seconds := (inp.metadata.getD {}).timeout_seconds.getD 120
    is_complete := false
    has_error := false }

/-- The initial `task_states` row inserted by `create_task` (only
`task_id`, `state_name`, `entered_at` are set; the rest are NULL /
schema defaults). -/
def createdEvent (inp : TaskInput) (nid now : Nat) : StateEventRow :=
  { id := nid
    task_id := inp.task_id
    state_name := inp.state
    entered_at := now
    exited_at := none
    duration_seconds := none
    result := none
    has_error := false
    error_message := none }

/-- The `task_data` row inserted by `create_task`; `error_details` is
set only when `error and error.get('has_error')` is truthy. -/
def createdDataRow (inp : TaskInput) : TaskDataRow :=
  { task_id := inp.task_id
    prompt := (inp.data.getD {}).prompt.getD ""
    context := (inp.data.getD {}).context.getD ""
    parameters := (inp.data.getD {}).parameters.getD []
    results := (inp.data.getD {}).results.getD []
    next_states := (inp.workflow.getD {}).next_states.getD []
    error_details :=
      match inp.error with
      | some l => if !l.isEmpty && strTruthy (dictGet l "has_error") then some l else none
      | none => none }

/-- `DatabaseManager.create_task`.  Inserts one row into each of the
three tables inside one transaction; a duplicate `task_id` violates a
PRIMARY KEY constraint (of `tasks` or of `task_data`), which raises,
rolls the transaction back and re-raises to the caller
(`Except.error ()`). -/
def create_task (db : DB) (inp : TaskInput) (now : Nat) : Except Unit (DB × String) :=
  if db.tasks.any (fun t => t.task_id == inp.task_id) ||
      db.task_data.any (fun d => d.task_id == inp.task_id) then
    Except.error ()
  else
    Except.ok
      ({ tasks := db.tasks ++ [createdTaskRow inp now]
         task_states := db.task_states ++ [createdEvent inp db.next_id now]
         task_data := db.task_data ++ [createdDataRow inp]
         next_id := db.next_id + 1 }, inp.task_id)

/-- WHERE clause of the sealing UPDATE in `update_task_state`:
`task_id = ? AND state_name = ? AND exited_at IS NULL`. -/
def sealCond (tid cur : String) (e : StateEventRow) : Bool :=
  e.task_id == tid && e.state_name == cur && e.exited_at.isNone

/-- SET clause of the sealing UPDATE: `exited_at = now`,
`duration_seconds = ROUND(strftime('%s', now) - strftime('%s', entered_at))`
(an exact integer difference of whole-second timestamps), `result = ?`. -/
def sealEvent (now : Nat) (result : Option String) (e : StateEventRow) : StateEventRow :=
  { e with
    exited_at := some now
    duration_seconds := some ((now : Int) - (e.entered_at : Int))
    result := result }

/-- The new `task_states` row inserted by `update_task_state`
(`task_id, state_name, entered_at, has_error, error_message`;
`has_error` is `1 if error else 0`). -/
def newStateEvent (tid ns : String) (nid now : Nat) (error : Option Dict) : StateEventRow :=
  { id := nid
    task_id := tid
    state_name := ns
    entered_at := now
    exited_at := none
    duration_seconds := none
    result := none
    has_error := dictTruthy error
    error_message := errMessage error }

/-- Effect of `UPDATE tasks SET current_state, updated_at, is_complete,
has_error WHERE task_id = ?` on one row. -/
def applyTaskUpdate (tid ns : String) (now : Nat) (ic he : Bool) (u : TaskRow) : TaskRow :=
  if u.task_id == tid then
    { u with current_state := ns, updated_at := now, is_complete := ic, has_error := he }
  else u

/-- Effect on one `task_data` row of the conditional
`UPDATE task_data SET error_details` plus the unconditional
`UPDATE task_data SET results` in `update_task_state`. -/
def applyDataUpdate (tid : String) (error : Option Dict) (results1 : Dict)
    (dr : TaskDataRow) : TaskDataRow :=
  if dr.task_id == tid then
    { dr with
      error_details := if dictTruthy error then error else dr.error_details
      results := results1 }
  else dr

/-- `DatabaseManager.update_task_state`.  `Except.ok (false, db)` is the
early `return False` on an unknown task; `Except.error ()` is a raised
exception (transaction rolled back, exception re-raised) — in
particular `fetchone()[0]` on a task with no `task_data` row raises
`TypeError`.  The written `results` mapping is read from the first
`task_data` row for the task, extended at the key `current_state` only
when `result` is truthy (`if result:`), and written back to every
`task_data` row of the task. -/
def update_task_state (db : DB) (task_id new_state : String)
    (result : Option String) (error : Option Dict) (now : Nat) :
    Except Unit (Bool × DB) :=
  match db.tasks.find? (fun t => t.task_id == task_id) with
  | none => Except.ok (false, db)
  | some t =>
    match db.task_data.find? (fun dr => dr.task_id == task_id) with
    | none => Except.error ()
    | some d =>
      let results1 :=
        if strTruthy result then dictInsert d.results t.current_state (result.getD "")
        else d.results
      Except.ok (true,
        { tasks := db.tasks.map
            (applyTaskUpdate task_id new_state now (new_state == t.completion_state)
              (dictTruthy error))
          task_states := (db.task_states.map (fun e =>
            if sealCond task_id t.current_state e then sealEvent now result e else e)) ++
            [newStateEvent task_id new_state db.next_id now error]
          task_data := db.task_data.map (applyDataUpdate task_id error results1)
          next_id := db.next_id + 1 })

/-- One row of the history SELECT in `get_task` (`state_name, entered_at,
exited_at, duration_seconds, result, has_error, error_message`). -/
structure EventView where
  state_name : String
  entered_at : Nat
  exited_at : Option Nat
  duration_seconds : Option Int
  result : Option String
  has_error : Bool
  error_message : Option String
deriving DecidableEq, Repr

/-- Projection of a `task_states` row onto the history SELECT columns. -/
def toView (e : StateEventRow) : EventView :=
  { state_name := e.state_name
    entered_at := e.entered_at
    exited_at := e.exited_at
    duration_seconds := e.duration_seconds
    result := e.result
    has_error := e.has_error
    error_message := e.error_message }

/-- Stable insertion for `ORDER BY entered_at` (ascending). -/
def insertAsc (e : EventView) : List EventView → List EventView
  | [] => [e]
  | h :: rest => if e.entered_at < h.entered_at then e :: h :: rest else h :: insertAsc e rest

/-- `ORDER BY entered_at` on the history rows. -/
def sortAsc : List EventView → List EventView
  | [] => []
  | h :: rest => insertAsc h (sortAsc rest)

/-- Values of the Python dict returned by `get_task`. -/
inductive Val where
  | s : String → Val
  | n : Nat → Val
  | i : Int → Val
  | b : Bool → Val
  | dict : Dict → Val
  | strs : List String → Val
  | events : List EventView → Val
deriving DecidableEq, Repr

/-- The dict returned by `get_task` (a `sqlite3.Row` converted to a dict,
plus the parsed JSON fields and the attached `state_history`). -/
abbrev TaskDict := List (String × Val)

/-- `DatabaseManager.get_task`.  The SELECT joins `tasks` and `task_data`
on `task_id`; a missing row on either side yields no joined row and the
function returns the empty dict `{}` (modelled `[]`). -/
def get_task (db : DB) (tid : String) : TaskDict :=
  match db.tasks.find? (fun t => t.task_id == tid),
        db.task_data.find? (fun d => d.task_id == tid) with
  | some t, some d =>
    [("task_id", Val.s t.task_id),
     ("workflow_id", Val.s t.workflow_id),
     ("workflow_name", Val.s t.workflow_name),
     ("workflow_version", Val.s t.workflow_version),
     ("current_state", Val.s t.current_state),
     ("completion_state", Val.s t.completion_state),
     ("created_at", Val.n t.created_at),
     ("updated_at", Val.n t.updated_at),
     ("creator_id", Val.s t.creator_id),
     ("priority", Val.s t.priority),
     ("max_retries", Val.i t.max_retries),
     ("retry_count", Val.i t.retry_count),
     ("timeout_seconds", Val.i t.timeout_seconds),
     ("is_complete", Val.b t.is_complete),
     ("has_error", Val.b t.has_error),
     ("prompt", Val.s d.prompt),
     ("context", Val.s d.context),
     ("parameters", Val.dict d.parameters),
     ("results", Val.dict d.results),
     ("next_states", Val.strs d.next_states),
     ("error_details", Val.dict (d.error_details.getD [])),
     ("state_history",
       Val.events (sortAsc ((db.task_states.filter
         (fun e => e.task_id == tid)).map toView)))]
  | _, _ => []

/-- One row of the summary SELECT in `list_tasks`. -/
structure TaskSummary where
  task_id : String
  workflow_id : String
  workflow_name : String
  current_state : String
  created_at : Nat
  updated_at : Nat
  is_complete : Bool
  has_error : Bool
deriving DecidableEq, Repr

/-- Projection of a `tasks` row onto the summary SELECT columns. -/
def summarize (t : TaskRow) : TaskSummary :=
  { task_id := t.task_id
    workflow_id := t.workflow_id
    workflow_name := t.workflow_name
    current_state := t.current_state
    created_at := t.created_at
    updated_at := t.updated_at
    is_complete := t.is_complete
    has_error := t.has_error }

/-- The WHERE clause `list_tasks` builds: each condition is appended only
when the corresponding argument is truthy (`if workflow_id:` /
`if state:`), so an empty-string filter is not applied. -/
def filterPred (workflow_id state : Option String) (t : TaskRow) : Bool :=
  (match workflow_id with
   | none => true
   | some w => if w == "" then true else t.workflow_id == w) &&
  (match state with
   | none => true
   | some s => if s == "" then true else t.current_state == s)

/-- Insertion for `ORDER BY updated_at DESC`. -/
def insertDesc (t : TaskSummary) : List TaskSummary → List TaskSummary
  | [] => [t]
  | h :: rest => if h.updated_at ≤ t.updated_at then t :: h :: rest else h :: insertDesc t rest

/-- `ORDER BY updated_at DESC` on the summary rows. -/
def sortDesc : List TaskSummary → List TaskSummary
  | [] => []
  | h :: rest => insertDesc h (sortDesc rest)

/-- `DatabaseManager.list_tasks`.  sqlite's `LIMIT n` with `n < 0`
imposes no truncation. -/
def list_tasks (db : DB) (workflow_id state : Option String) (limit : Int) :
    List TaskSummary :=
  if limit < 0 then
    sortDesc ((db.tasks.filter (filterPred workflow_id state)).map summarize)
  else
    (sortDesc ((db.tasks.filter (filterPred workflow_id state)).map summarize)).take
      limit.toNat

/-- Where a storage-layer fault strikes during one operation: nowhere,
at `sqlite3.connect(...)` itself (the first statement of every `try`
body), or in a later statement executed on the open connection. -/
inductive FaultSite where
  | none
  | atConnect
  | afterConnect
deriving DecidableEq, Repr

/-- `create_task` under a storage-layer fault.  If `sqlite3.connect`
itself raises, `conn` is an unbound local, so the handler's `if conn:`
raises `UnboundLocalError` and an exception escapes; for a later fault
the handler rolls back, closes and re-raises.  Either way the fault
reaches the caller as a raised exception (`Except.error ()`) with the
database unchanged. -/
def create_task_f (f : FaultSite) (db : DB) (inp : TaskInput) (now : Nat) :
    Except Unit (DB × String) :=
  match f with
  | FaultSite.none => create_task db inp now
  | FaultSite.atConnect => Except.error ()
  | FaultSite.afterConnect => Except.error ()

/-- `update_task_state` under a storage-layer fault: as for
`create_task`, both a connect-time fault (`UnboundLocalError` in the
handler) and a later fault (rollback then `raise`) escape to the
caller. -/
def update_task_state_f (f : FaultSite) (db : DB) (task_id new_state : String)
    (result : Option String) (error : Option Dict) (now : Nat) :
    Except Unit (Bool × DB) :=
  match f with
  | FaultSite.none => update_task_state db task_id new_state result error now
  | FaultSite.atConnect => Except.error ()
  | FaultSite.afterConnect => Except.error ()

/-- `get_task` under a storage-layer fault.  If `sqlite3.connect`
itself raises, `conn` is an unbound local, so the handler's `if conn:`
raises `UnboundLocalError` and the fault escapes to the caller
(`Except.error ()`); a fault raised after the connection is established
is caught, logged, and surfaced as the empty dict `{}`. -/
def get_task_f (f : FaultSite) (db : DB) (tid : String) : Except Unit TaskDict :=
  match f with
  | FaultSite.none => Except.ok (get_task db tid)
  | FaultSite.atConnect => Except.error ()
  | FaultSite.afterConnect => Except.ok []

/-- `list_tasks` under a storage-layer fault: a connect-time fault
escapes via `UnboundLocalError` in the handler; a later fault is
caught, logged, and surfaced as the empty list. -/
def list_tasks_f (f : FaultSite) (db : DB) (workflow_id state : Option String)
    (limit : Int) : Except Unit (List TaskSummary) :=
  match f with
  | FaultSite.none => Except.ok (list_tasks db workflow_id state limit)
  | FaultSite.atConnect => Except.error ()
  | FaultSite.afterConnect => Except.ok []

/-- The `task_states` rows of `db` for `tid` with `exited_at IS NULL`
(the open State Events of the task). -/
def openFor (db : DB) (tid : String) : List StateEventRow :=
  db.task_states.filter (fun e => e.task_id == tid && e.exited_at.isNone)

/-- The single-open-event invariant: every task has exactly one open
State Event and its `state_name` is the task's `current_state`; and
every open State Event belongs to a task that exists. -/
def StoreInv (db : DB) : Prop :=
  (∀ t ∈ db.tasks, ∃ e, openFor db t.task_id = [e] ∧ e.state_name = t.current_state) ∧
  (∀ e ∈ db.task_states, e.exited_at = none → ∃ t ∈ db.tasks, t.task_id = e.task_id)

/-- One successful public mutating call on the store. -/
inductive Step : DB → DB → Prop where
  | create (db db' : DB) (inp : TaskInput) (now : Nat) (tid : String)
      (h : create_task db inp now = Except.ok (db', tid)) : Step db db'
  | update (db db' : DB) (tid ns : String) (r : Option String) (err : Option Dict)
      (now : Nat) (b : Bool)
      (h : update_task_state db tid ns r err now = Except.ok (b, db')) : Step db db'

/-- Databases reachable from a fresh store by successful calls. -/
inductive Reachable : DB → Prop where
  | empty : Reachable DB.empty
  | step {db db' : DB} (h : Reachable db) (s : Step db db') : Reachable db'


/-- Replacing the pairs keyed `k` makes a read at `k` give the new value. -/
theorem dictGet_map_self (m : Dict) (k v : String) (h : (dictGet m k).isSome = true) :
    dictGet (m.map (fun p => if p.1 = k then (k, v) else p)) k = some v := by
  induction m with
  | nil => simp [dictGet] at h
  | cons a m ih =>
    by_cases ha : a.1 = k
    · simp [List.map_cons, dictGet, if_pos ha]
    · simp only [dictGet, if_neg ha] at h
      simp only [List.map_cons, if_neg ha, dictGet]
      exact ih h

/-- Replacing the pairs keyed `k` does not change a read at another key. -/
theorem dictGet_map_ne (m : Dict) (k v kk : String) (h : kk ≠ k) :
    dictGet (m.map (fun p => if p.1 = k then (k, v) else p)) kk = dictGet m kk := by
  induction m with
  | nil => rfl
  | cons a m ih =>
    by_cases ha : a.1 = k
    · simp only [List.map_cons, if_pos ha, dictGet]
      rw [if_neg (fun hkk : k = kk => h hkk.symm), if_neg (ha ▸ fun hkk : a.1 = kk => h (ha ▸ hkk).symm)]
      exact ih
    · simp only [List.map_cons, if_neg ha, dictGet]
      by_cases hb : a.1 = kk
      · simp [if_pos hb]
      · rw [if_neg hb, if_neg hb]
        exact ih

/-- Appending a pair keyed `k` does not change a read at another key. -/
theorem dictGet_append_ne (m : Dict) (k v kk : String) (h : kk ≠ k) :
    dictGet (m ++ [(k, v)]) kk = dictGet m kk := by
  induction m with
  | nil => simp only [List.nil_append, dictGet, if_neg (fun hkk : k = kk => h hkk.symm)]
  | cons a m ih =>
    by_cases hb : a.1 = kk
    · simp [dictGet, if_pos hb]
    · simp only [List.cons_append, dictGet, if_neg hb]
      exact ih

/-- Appending a pair with a fresh key makes a read at that key find it. -/
theorem dictGet_append_self (m : Dict) (k v : String) (h : dictGet m k = none) :
    dictGet (m ++ [(k, v)]) k = some v := by
  induction m with
  | nil => simp [dictGet]
  | cons a m ih =>
    by_cases ha : a.1 = k
    · simp [dictGet, if_pos ha] at h
    · simp only [dictGet, if_neg ha] at h
      simp only [List.cons_append, dictGet, if_neg ha]
      exact ih h

/-- Writing a key then reading it back gives the written value. -/
theorem dictGet_dictInsert_self (m : Dict) (k v : String) :
    dictGet (dictInsert m k v) k = some v := by
  unfold dictInsert
  by_cases hs : (dictGet m k).isSome = true
  · rw [if_pos hs]; exact dictGet_map_self m k v hs
  · rw [if_neg hs]
    exact dictGet_append_self m k v (Option.not_isSome_iff_eq_none.mp (by simpa using hs))

/-- Writing one key leaves the value read at any other key unchanged. -/
theorem dictGet_dictInsert_ne (m : Dict) (k v kk : String) (h : kk ≠ k) :
    dictGet (dictInsert m k v) kk = dictGet m kk := by
  unfold dictInsert
  by_cases hs : (dictGet m k).isSome = true
  · rw [if_pos hs]; exact dictGet_map_ne m k v kk h
  · rw [if_neg hs]; exact dictGet_append_ne m k v kk h

/-- Mapping a function that fixes every element it does not falsify
does not change a filter. -/
theorem filter_map_congr {α : Type} (l : List α) (g : α → α) (p : α → Bool)
    (h : ∀ e ∈ l, g e = e ∨ (p e = false ∧ p (g e) = false)) :
    (l.map g).filter p = l.filter p := by
  induction l with
  | nil => rfl
  | cons a l ih =>
    have ih2 := ih (fun e he => h e (List.mem_cons_of_mem a he))
    rcases h a (List.mem_cons_self a l) with ha | ⟨h1, h2⟩
    · simp only [List.map_cons, List.filter_cons, ha, ih2]
    · simp only [List.map_cons, List.filter_cons, h1, h2, ih2, Bool.false_eq_true,
        if_false]

/-- `find?` commutes with mapping a function that preserves the predicate. -/
theorem find?_map_pres {α : Type} (l : List α) (g : α → α) (p : α → Bool)
    (h : ∀ x, p (g x) = p x) :
    (l.map g).find? p = (l.find? p).map g := by
  induction l with
  | nil => rfl
  | cons a l ih =>
    cases hp : p a with
    | true =>
      rw [List.map_cons, List.find?_cons_of_pos _ (by rw [h a, hp]),
        List.find?_cons_of_pos _ hp]
      rfl
    | false =>
      rw [List.map_cons, List.find?_cons_of_neg _ (by simp [h a, hp]),
        List.find?_cons_of_neg _ (by simp [hp]), ih]

/-- Helper-function lemmas for the row updaters. -/
theorem applyTaskUpdate_task_id (tid ns : String) (now : Nat) (ic he : Bool) (u : TaskRow) :
    (applyTaskUpdate tid ns now ic he u).task_id = u.task_id := by
  unfold applyTaskUpdate
  split <;> rfl

/-- `applyTaskUpdate` on the matching row. -/
theorem applyTaskUpdate_self (tid ns : String) (now : Nat) (ic he : Bool) (u : TaskRow)
    (h : u.task_id = tid) :
    applyTaskUpdate tid ns now ic he u =
      { u with current_state := ns, updated_at := now, is_complete := ic, has_error := he } := by
  unfold applyTaskUpdate
  rw [if_pos (by simp [h])]

/-- `applyTaskUpdate` on a non-matching row. -/
theorem applyTaskUpdate_other (tid ns : String) (now : Nat) (ic he : Bool) (u : TaskRow)
    (h : u.task_id ≠ tid) :
    applyTaskUpdate tid ns now ic he u = u := by
  unfold applyTaskUpdate
  rw [if_neg (by simp [h])]

/-- `applyDataUpdate` keeps the row key. -/
theorem applyDataUpdate_task_id (tid : String) (err : Option Dict) (rs1 : Dict)
    (dr : TaskDataRow) :
    (applyDataUpdate tid err rs1 dr).task_id = dr.task_id := by
  unfold applyDataUpdate
  split <;> rfl

/-- `applyDataUpdate` on the matching row. -/
theorem applyDataUpdate_self (tid : String) (err : Option Dict) (rs1 : Dict)
    (dr : TaskDataRow) (h : dr.task_id = tid) :
    applyDataUpdate tid err rs1 dr =
      { dr with
        error_details := if dictTruthy err then err else dr.error_details
        results := rs1 } := by
  unfold applyDataUpdate
  rw [if_pos (by simp [h])]

/-- The explicit database produced by a successful `update_task_state`
on a task row `t` (first `tasks` match) with payload row `d` (first
`task_data` match). -/
theorem update_ok_shape (db : DB) (tid ns : String) (r : Option String)
    (err : Option Dict) (now : Nat) (t : TaskRow) (d : TaskDataRow)
    (ht : db.tasks.find? (fun x => x.task_id == tid) = some t)
    (hd : db.task_data.find? (fun x => x.task_id == tid) = some d) :
    update_task_state db tid ns r err now = Except.ok (true,
      { tasks := db.tasks.map
          (applyTaskUpdate tid ns now (ns == t.completion_state) (dictTruthy err))
        task_states := (db.task_states.map (fun e =>
          if sealCond tid t.current_state e then sealEvent now r e else e)) ++
          [newStateEvent tid ns db.next_id now err]
        task_data := db.task_data.map (applyDataUpdate tid err
          (if strTruthy r then dictInsert d.results t.current_state (r.getD "")
           else d.results))
        next_id := db.next_id + 1 }) := by
  unfold update_task_state
  rw [ht, hd]

/-- Unfolding the sealing WHERE clause. -/
theorem sealCond_eq_true {tid cur : String} {e : StateEventRow} :
    sealCond tid cur e = true ↔ e.task_id = tid ∧ e.state_name = cur ∧ e.exited_at = none := by
  simp [sealCond, and_assoc, Option.isNone_iff_eq_none]

/-- Membership in the open events of a task. -/
theorem mem_openFor {db : DB} {tid : String} {e : StateEventRow} :
    e ∈ openFor db tid ↔ e ∈ db.task_states ∧ e.task_id = tid ∧ e.exited_at = none := by
  simp [openFor, List.mem_filter, and_assoc, Option.isNone_iff_eq_none]

/-- After the sealing UPDATE and the INSERT, the inserted event is the
only open event of the updated task. -/
theorem openFor_update_self (states : List StateEventRow) (tid cur : String)
    (r : Option String) (now : Nat) (newEv : StateEventRow)
    (hnew_tid : newEv.task_id = tid) (hnew_open : newEv.exited_at = none)
    (hall : ∀ e ∈ states, e.task_id = tid → e.exited_at = none → sealCond tid cur e = true) :
    ((states.map (fun e => if sealCond tid cur e then sealEvent now r e else e))
      ++ [newEv]).filter (fun e => e.task_id == tid && e.exited_at.isNone) = [newEv] := by
  rw [List.filter_append]
  have h2 : [newEv].filter (fun e => e.task_id == tid && e.exited_at.isNone) = [newEv] := by
    simp [List.filter, hnew_tid, hnew_open]
  have h1 : (states.map (fun e => if sealCond tid cur e then sealEvent now r e else e)).filter
      (fun e => e.task_id == tid && e.exited_at.isNone) = [] := by
    rw [List.filter_eq_nil_iff]
    intro x hx
    obtain ⟨e, he, rfl⟩ := List.mem_map.mp hx
    by_cases hc : sealCond tid cur e = true
    · rw [if_pos hc]
      simp [sealEvent]
    · rw [if_neg hc]
      simp only [Bool.and_eq_true, beq_iff_eq, Option.isNone_iff_eq_none, not_and]
      intro ha hb
      exact hc (hall e he ha hb)
  rw [h1, h2, List.nil_append]

/-- The sealing UPDATE and the INSERT leave the open events of every
other task unchanged. -/
theorem openFor_update_other (states : List StateEventRow) (tid cur tid2 : String)
    (r : Option String) (now : Nat) (newEv : StateEventRow)
    (hnew_tid : newEv.task_id = tid) (hne : tid2 ≠ tid) :
    ((states.map (fun e => if sealCond tid cur e then sealEvent now r e else e))
      ++ [newEv]).filter (fun e => e.task_id == tid2 && e.exited_at.isNone) =
    states.filter (fun e => e.task_id == tid2 && e.exited_at.isNone) := by
  rw [List.filter_append]
  have h2 : [newEv].filter (fun e => e.task_id == tid2 && e.exited_at.isNone) = [] := by
    have hB : (newEv.task_id == tid2) = false := by
      rw [hnew_tid]
      exact beq_false_of_ne (fun hh => hne hh.symm)
    simp [List.filter, hB]
  rw [h2, List.append_nil]
  apply filter_map_congr
  intro e he
  by_cases hc : sealCond tid cur e = true
  · right
    have hetid : e.task_id = tid := (sealCond_eq_true.mp hc).1
    have hB : (e.task_id == tid2) = false := by
      rw [hetid]
      exact beq_false_of_ne (fun hh => hne hh.symm)
    constructor
    · simp [hB]
    · rw [if_pos hc]
      have hB2 : ((sealEvent now r e).task_id == tid2) = false := by
        show (e.task_id == tid2) = false
        exact hB
      simp [hB2]
  · left
    rw [if_neg hc]

/-- A fresh store satisfies the single-open-event invariant. -/
theorem storeInv_empty : StoreInv DB.empty := by
  refine ⟨?_, ?_⟩
  · intro t ht
    simp [DB.empty] at ht
  · intro e he
    simp [DB.empty] at he

/-- A successful `update_task_state` preserves the single-open-event
invariant. -/
theorem storeInv_update (db db' : DB) (tid ns : String) (r : Option String)
    (err : Option Dict) (now : Nat) (b : Bool) (hInv : StoreInv db)
    (h : update_task_state db tid ns r err now = Except.ok (b, db')) :
    StoreInv db' := by
  cases ht : db.tasks.find? (fun x => x.task_id == tid) with
  | none =>
    unfold update_task_state at h
    rw [ht] at h
    simp only [Except.ok.injEq, Prod.mk.injEq] at h
    rw [← h.2]
    exact hInv
  | some t =>
    cases hd : db.task_data.find? (fun x => x.task_id == tid) with
    | none =>
      unfold update_task_state at h
      rw [ht, hd] at h
      simp at h
    | some d =>
      rw [update_ok_shape db tid ns r err now t d ht hd] at h
      simp only [Except.ok.injEq, Prod.mk.injEq] at h
      obtain ⟨-, hdb⟩ := h
      subst hdb
      have htid : t.task_id = tid := by
        have hp := List.find?_some ht
        simpa using hp
      have htmem : t ∈ db.tasks := List.mem_of_find?_eq_some ht
      obtain ⟨e0, he0, hname⟩ := hInv.1 t htmem
      rw [htid] at he0
      have hall : ∀ e ∈ db.task_states, e.task_id = tid → e.exited_at = none →
          sealCond tid t.current_state e = true := by
        intro e he h1 h2
        have hmem : e ∈ openFor db tid := mem_openFor.mpr ⟨he, h1, h2⟩
        rw [he0, List.mem_singleton] at hmem
        subst hmem
        exact sealCond_eq_true.mpr ⟨h1, hname, h2⟩
      constructor
      · intro u' hu'
        obtain ⟨u, hu, rfl⟩ := List.mem_map.mp hu'
        by_cases hcase : u.task_id = tid
        · rw [applyTaskUpdate_self tid ns now (ns == t.completion_state) (dictTruthy err)
            u hcase]
          refine ⟨newStateEvent tid ns db.next_id now err, ?_, rfl⟩
          show ((db.task_states.map (fun e =>
              if sealCond tid t.current_state e then sealEvent now r e else e)) ++
              [newStateEvent tid ns db.next_id now err]).filter
              (fun e => e.task_id == u.task_id && e.exited_at.isNone) =
            [newStateEvent tid ns db.next_id now err]
          rw [hcase]
          exact openFor_update_self db.task_states tid t.current_state r now
            (newStateEvent tid ns db.next_id now err) rfl rfl hall
        · rw [applyTaskUpdate_other tid ns now (ns == t.completion_state) (dictTruthy err)
            u hcase]
          obtain ⟨e1, he1, hname1⟩ := hInv.1 u hu
          refine ⟨e1, ?_, hname1⟩
          show ((db.task_states.map (fun e =>
              if sealCond tid t.current_state e then sealEvent now r e else e)) ++
              [newStateEvent tid ns db.next_id now err]).filter
              (fun e => e.task_id == u.task_id && e.exited_at.isNone) = [e1]
          rw [openFor_update_other db.task_states tid t.current_state u.task_id r now
            (newStateEvent tid ns db.next_id now err) rfl hcase]
          exact he1
      · intro e' he' hopen
        rcases List.mem_append.mp he' with he2 | he2
        · obtain ⟨e, he, rfl⟩ := List.mem_map.mp he2
          by_cases hc : sealCond tid t.current_state e = true
          · rw [if_pos hc] at hopen
            simp [sealEvent] at hopen
          · rw [if_neg hc] at hopen ⊢
            obtain ⟨u, hu, hutid⟩ := hInv.2 e he hopen
            refine ⟨applyTaskUpdate tid ns now (ns == t.completion_state) (dictTruthy err) u,
              List.mem_map_of_mem _ hu, ?_⟩
            rw [applyTaskUpdate_task_id]
            exact hutid
        · rw [List.mem_singleton] at he2
          subst he2
          refine ⟨applyTaskUpdate tid ns now (ns == t.completion_state) (dictTruthy err) t,
            List.mem_map_of_mem _ htmem, ?_⟩
          rw [applyTaskUpdate_task_id]
          exact htid

/-- The explicit database produced by a successful `create_task`. -/
theorem create_ok_shape (db : DB) (inp : TaskInput) (now : Nat)
    (hdup : (db.tasks.any (fun t => t.task_id == inp.task_id) ||
      db.task_data.any (fun d => d.task_id == inp.task_id)) = false) :
    create_task db inp now = Except.ok
      ({ tasks := db.tasks ++ [createdTaskRow inp now]
         task_states := db.task_states ++ [createdEvent inp db.next_id now]
         task_data := db.task_data ++ [createdDataRow inp]
         next_id := db.next_id + 1 }, inp.task_id) := by
  unfold create_task
  rw [hdup]
  rfl

/-- A successful `create_task` preserves the single-open-event
invariant. -/
theorem storeInv_create (db db' : DB) (inp : TaskInput) (now : Nat) (tid : String)
    (hInv : StoreInv db)
    (h : create_task db inp now = Except.ok (db', tid)) :
    StoreInv db' := by
  cases hdup : (db.tasks.any (fun t => t.task_id == inp.task_id) ||
      db.task_data.any (fun d => d.task_id == inp.task_id)) with
  | true =>
    unfold create_task at h
    rw [hdup] at h
    simp at h
  | false =>
    rw [create_ok_shape db inp now hdup] at h
    simp only [Except.ok.injEq, Prod.mk.injEq] at h
    obtain ⟨hdb, -⟩ := h
    subst hdb
    have hno : ∀ u ∈ db.tasks, u.task_id ≠ inp.task_id := by
      intro u hu heq
      have h1 : db.tasks.any (fun t => t.task_id == inp.task_id) = true :=
        List.any_eq_true.mpr ⟨u, hu, by simp [heq]⟩
      rw [h1] at hdup
      simp at hdup
    constructor
    · intro u' hu'
      rcases List.mem_append.mp hu' with hu2 | hu2
      · obtain ⟨e1, he1, hname1⟩ := hInv.1 u' hu2
        refine ⟨e1, ?_, hname1⟩
        show (db.task_states ++ [createdEvent inp db.next_id now]).filter
          (fun e => e.task_id == u'.task_id && e.exited_at.isNone) = [e1]
        rw [List.filter_append]
        have hze : [createdEvent inp db.next_id now].filter
            (fun e => e.task_id == u'.task_id && e.exited_at.isNone) = [] := by
          have hB : ((createdEvent inp db.next_id now).task_id == u'.task_id) = false := by
            show (inp.task_id == u'.task_id) = false
            exact beq_false_of_ne (fun hh => hno u' hu2 hh.symm)
          simp [List.filter, hB]
        rw [hze, List.append_nil]
        exact he1
      · rw [List.mem_singleton] at hu2
        subst hu2
        refine ⟨createdEvent inp db.next_id now, ?_, rfl⟩
        show (db.task_states ++ [createdEvent inp db.next_id now]).filter
          (fun e => e.task_id == (createdTaskRow inp now).task_id && e.exited_at.isNone) =
          [createdEvent inp db.next_id now]
        rw [List.filter_append]
        have hempty : db.task_states.filter
            (fun e => e.task_id == (createdTaskRow inp now).task_id && e.exited_at.isNone) = [] := by
          rw [List.filter_eq_nil_iff]
          intro e he
          simp only [Bool.and_eq_true, beq_iff_eq, Option.isNone_iff_eq_none, not_and]
          intro h1 h2
          obtain ⟨u, hu, hutid⟩ := hInv.2 e he h2
          exact hno u hu (hutid.trans h1)
        have hone : [createdEvent inp db.next_id now].filter
            (fun e => e.task_id == (createdTaskRow inp now).task_id && e.exited_at.isNone) =
            [createdEvent inp db.next_id now] := by
          simp [List.filter, createdEvent, createdTaskRow]
        rw [hempty, hone, List.nil_append]
    · intro e' he' hopen
      rcases List.mem_append.mp he' with he2 | he2
      · obtain ⟨u, hu, hutid⟩ := hInv.2 e' he2 hopen
        exact ⟨u, List.mem_append_left _ hu, hutid⟩
      · rw [List.mem_singleton] at he2
        subst he2
        exact ⟨createdTaskRow inp now,
          List.mem_append_right _ (List.mem_singleton_self _), rfl⟩

/-- Every database reachable from a fresh store by successful calls
satisfies the single-open-event invariant. -/
theorem reachable_storeInv (db : DB) (h : Reachable db) : StoreInv db := by
  induction h with
  | empty => exact storeInv_empty
  | step h s ih =>
    cases s with
    | create inp now tid hc => exact storeInv_create _ _ inp now tid ih hc
    | update tid ns r err now b hu => exact storeInv_update _ _ tid ns r err now b ih hu

/-- A sample `tasks` row used to instantiate theorems concretely. -/
def sampleTask : TaskRow :=
  { task_id := "t1", workflow_id := "wfA", workflow_name := "extract",
    workflow_version := "1.0", current_state := "s1", completion_state := "done",
    created_at := 0, updated_at := 0, creator_id := "system", priority := "normal",
    max_retries := 3, retry_count := 0, timeout_seconds := 120,
    is_complete := false, has_error := false }

/-- The open State Event of `sampleTask`. -/
def sampleEvent : StateEventRow :=
  { id := 0, task_id := "t1", state_name := "s1", entered_at := 2, exited_at := none,
    duration_seconds := none, result := none, has_error := false, error_message := none }

/-- The payload row of `sampleTask`. -/
def sampleData : TaskDataRow :=
  { task_id := "t1", prompt := "p", context := "", parameters := [],
    results := [("s1", "old"), ("k", "v")], next_states := [], error_details := none }

/-- A sample database holding one task in state `s1`. -/
def sampleDB : DB :=
  { tasks := [sampleTask], task_states := [sampleEvent], task_data := [sampleData],
    next_id := 1 }

/-- A sample `create_task` argument. -/
def inp0 : TaskInput := { task_id := "t1", workflow_id := "wf1", state := "s1" }

/-- The database after `create_task` of `inp0` on a fresh store. -/
def db1 : DB :=
  match create_task DB.empty inp0 0 with
  | Except.ok (d, _) => d
  | Except.error _ => DB.empty

/-- The database after a further transition `s1 → s2` with result `r1`. -/
def db2 : DB :=
  match update_task_state db1 "t1" "s2" (some "r1") none 5 with
  | Except.ok (_, d) => d
  | Except.error _ => db1

/-- C1: for every task, after create and after any sequence of
successful `update_task_state` calls, exactly one `task_states` row for
that `task_id` has `exited_at` null, and that row's `state_name` equals
the `tasks` row's `current_state`. -/
theorem single_open_event_invariant (db : DB) (h : Reachable db) :
    ∀ t ∈ db.tasks, ∃ e, openFor db t.task_id = [e] ∧ e.state_name = t.current_state :=
  (reachable_storeInv db h).1

/-- C1 witness: the invariant instantiated on the concrete database
reached by one create and one transition. -/
theorem single_open_event_invariant_witness :
    Reachable db2 ∧
    ∀ t ∈ db2.tasks, ∃ e, openFor db2 t.task_id = [e] ∧ e.state_name = t.current_state := by
  have h1 : Reachable db1 :=
    Reachable.step Reachable.empty
      (Step.create DB.empty db1 inp0 0 "t1" (by rfl))
  have h2 : Reachable db2 :=
    Reachable.step h1
      (Step.update db1 db2 "t1" "s2" (some "r1") none 5 true (by rfl))
  exact ⟨h2, single_open_event_invariant db2 h2⟩

/-- C5: for every `task_id` not present in the `tasks` table,
`update_task_state` returns `False` and leaves the database unchanged
(no row inserted, updated or deleted in any of the three tables). -/
theorem update_not_found_stable (db : DB) (tid ns : String) (r : Option String)
    (err : Option Dict) (now : Nat)
    (h : db.tasks.find? (fun x => x.task_id == tid) = none) :
    update_task_state db tid ns r err now = Except.ok (false, db) := by
  unfold update_task_state
  rw [h]

/-- C5 witness: a transition on the unknown id `zz` against the sample
database returns `False` with the database unchanged. -/
theorem update_not_found_stable_witness :
    sampleDB.tasks.find? (fun x => x.task_id == "zz") = none ∧
    update_task_state sampleDB "zz" "s2" (some "r") none 9 = Except.ok (false, sampleDB) :=
  ⟨by rfl, update_not_found_stable sampleDB "zz" "s2" (some "r") none 9 (by rfl)⟩

/-- C2 counterexample: every one of the four public operations can let
a storage-layer fault escape to the caller as a raised exception
(`Except.error ()`) instead of a negative/empty/false result — a fault
after the connection is rolled back and re-raised by `create_task` and
`update_task_state`, and a fault at `sqlite3.connect` escapes even
`get_task` and `list_tasks` because the handler's `if conn:` hits an
unbound local.  This contradicts the claim that a fault is never
propagated as a raw exception. -/
theorem fault_propagation_cex :
    create_task_f FaultSite.afterConnect sampleDB
      { task_id := "t9", workflow_id := "w", state := "s" } 0 = Except.error () ∧
    update_task_state_f FaultSite.afterConnect sampleDB "t1" "s2" none none 1 =
      Except.error () ∧
    get_task_f FaultSite.atConnect sampleDB "t1" = Except.error () ∧
    list_tasks_f FaultSite.atConnect sampleDB none none 100 = Except.error () :=
  ⟨rfl, rfl, rfl, rfl⟩

/-- C2 (amended): only a fault raised after the connection is
established during `get_task` or `list_tasks` is caught at the
operation boundary and surfaced as an empty result; a fault at
`sqlite3.connect` escapes every operation as an exception (for
`get_task`/`list_tasks` via `UnboundLocalError` in the handler itself),
and any fault during `create_task` or `update_task_state` escapes as an
exception (rolled back and re-raised when it strikes after the
connection). -/
theorem fault_propagation_policy (db : DB) (inp : TaskInput) (now : Nat)
    (tid ns : String) (r : Option String) (err : Option Dict)
    (wf st : Option String) (lim : Int) :
    get_task_f FaultSite.afterConnect db tid = Except.ok [] ∧
    list_tasks_f FaultSite.afterConnect db wf st lim = Except.ok [] ∧
    get_task_f FaultSite.atConnect db tid = Except.error () ∧
    list_tasks_f FaultSite.atConnect db wf st lim = Except.error () ∧
    create_task_f FaultSite.atConnect db inp now = Except.error () ∧
    create_task_f FaultSite.afterConnect db inp now = Except.error () ∧
    update_task_state_f FaultSite.atConnect db tid ns r err now = Except.error () ∧
    update_task_state_f FaultSite.afterConnect db tid ns r err now = Except.error () :=
  ⟨rfl, rfl, rfl, rfl, rfl, rfl, rfl, rfl⟩

/-- C3 counterexample: on the sample task (current state `s1`, stored
results `{s1: old, k: v}`), a transition carrying the empty-string
result leaves the mapping unchanged (so `results[s1]` is not set to the
supplied result), and a transition carrying result `new` overwrites the
previously present value at the key `s1` (so a key already present does
not keep its prior value). -/
theorem result_accumulation_cex :
    (update_task_state sampleDB "t1" "s2" (some "") none 5).map
        (fun p => p.2.task_data.map (fun dr => dr.results)) =
      Except.ok [[("s1", "old"), ("k", "v")]] ∧
    (update_task_state sampleDB "t1" "s2" (some "new") none 5).map
        (fun p => p.2.task_data.map (fun dr => dr.results)) =
      Except.ok [[("s1", "new"), ("k", "v")]] :=
  ⟨rfl, rfl⟩

/-- C3 (amended): if `update_task_state` is called with a truthy
(non-empty) result on an existing task whose current state is `S`, then
afterwards the payload's results mapping has `results[S] = result`, and
every key other than `S` reads exactly as before the call (a prior
entry at `S` itself is overwritten). -/
theorem result_accumulation (db : DB) (tid ns rs : String) (err : Option Dict)
    (now : Nat) (t : TaskRow) (d : TaskDataRow)
    (ht : db.tasks.find? (fun x => x.task_id == tid) = some t)
    (hd : db.task_data.find? (fun x => x.task_id == tid) = some d)
    (hr : rs ≠ "") :
    ∃ db', update_task_state db tid ns (some rs) err now = Except.ok (true, db') ∧
      ∃ d', db'.task_data.find? (fun x => x.task_id == tid) = some d' ∧
        dictGet d'.results t.current_state = some rs ∧
        ∀ k, k ≠ t.current_state → dictGet d'.results k = dictGet d.results k := by
  have hdt : d.task_id = tid := by
    have hp := List.find?_some hd
    simpa using hp
  have hrs : strTruthy (some rs) = true := by simp [strTruthy, hr]
  refine ⟨_, update_ok_shape db tid ns (some rs) err now t d ht hd, ?_⟩
  have hpres : ∀ x : TaskDataRow,
      ((applyDataUpdate tid err
        (if strTruthy (some rs) then dictInsert d.results t.current_state ((some rs).getD "")
         else d.results) x).task_id == tid) = (x.task_id == tid) := by
    intro x
    rw [applyDataUpdate_task_id]
  have hfind : (db.task_data.map (applyDataUpdate tid err
      (if strTruthy (some rs) then dictInsert d.results t.current_state ((some rs).getD "")
       else d.results))).find? (fun x => x.task_id == tid) =
      some (applyDataUpdate tid err
        (if strTruthy (some rs) then dictInsert d.results t.current_state ((some rs).getD "")
         else d.results) d) := by
    rw [find?_map_pres _ _ _ hpres, hd]
    rfl
  refine ⟨_, hfind, ?_, ?_⟩
  · rw [applyDataUpdate_self _ _ _ d hdt]
    show dictGet (if strTruthy (some rs) = true
        then dictInsert d.results t.current_state ((some rs).getD "")
        else d.results) t.current_state = some rs
    rw [if_pos hrs]
    exact dictGet_dictInsert_self d.results t.current_state rs
  · intro k hk
    rw [applyDataUpdate_self _ _ _ d hdt]
    show dictGet (if strTruthy (some rs) = true
        then dictInsert d.results t.current_state ((some rs).getD "")
        else d.results) k = dictGet d.results k
    rw [if_pos hrs]
    exact dictGet_dictInsert_ne d.results t.current_state rs k hk

/-- C3 witness: the amended accumulation property on the sample
database with result `new`. -/
theorem result_accumulation_witness :
    ("new" : String) ≠ "" ∧
    (∃ db', update_task_state sampleDB "t1" "s2" (some "new") none 5 =
        Except.ok (true, db') ∧
      ∃ d', db'.task_data.find? (fun x => x.task_id == "t1") = some d' ∧
        dictGet d'.results sampleTask.current_state = some "new" ∧
        ∀ k, k ≠ sampleTask.current_state →
          dictGet d'.results k = dictGet sampleData.results k) :=
  ⟨by decide,
   result_accumulation sampleDB "t1" "s2" "new" none 5 sampleTask sampleData
     (by rfl) (by rfl) (by decide)⟩

/-- C4 counterexample: a call whose `error` argument is present but an
empty mapping (Python `error={}`) succeeds, yet leaves the task's
`has_error` false — `bool(error)` tests truthiness, not presence, so
"has_error iff an error argument was present" fails. -/
theorem derived_flags_cex :
    (some ([] : Dict) ≠ (none : Option Dict)) ∧
    (update_task_state sampleDB "t1" "s2" none (some ([] : Dict)) 5).map
        (fun p => (p.1, p.2.tasks.map (fun u => u.has_error))) =
      Except.ok (true, [false]) :=
  ⟨by simp, rfl⟩

/-- C4 (amended): immediately after a successful `update_task_state` on
an existing task, `is_complete` is true iff `new_state` equals the
task's `completion_state`, and `has_error` is true iff the `error`
argument of that call was truthy, i.e. present and a non-empty mapping
(regardless of errors on earlier transitions). -/
theorem derived_flags (db : DB) (tid ns : String) (r : Option String)
    (err : Option Dict) (now : Nat) (t : TaskRow) (d : TaskDataRow)
    (ht : db.tasks.find? (fun x => x.task_id == tid) = some t)
    (hd : db.task_data.find? (fun x => x.task_id == tid) = some d) :
    ∃ db', update_task_state db tid ns r err now = Except.ok (true, db') ∧
      ∃ t', db'.tasks.find? (fun x => x.task_id == tid) = some t' ∧
        (t'.is_complete = true ↔ ns = t.completion_state) ∧
        (t'.has_error = true ↔ ∃ l, err = some l ∧ l ≠ []) := by
  have htid : t.task_id = tid := by
    have hp := List.find?_some ht
    simpa using hp
  refine ⟨_, update_ok_shape db tid ns r err now t d ht hd, ?_⟩
  have hpres : ∀ x : TaskRow,
      ((applyTaskUpdate tid ns now (ns == t.completion_state) (dictTruthy err) x).task_id
        == tid) = (x.task_id == tid) := by
    intro x
    rw [applyTaskUpdate_task_id]
  have hfind : (db.tasks.map
      (applyTaskUpdate tid ns now (ns == t.completion_state) (dictTruthy err))).find?
      (fun x => x.task_id == tid) =
      some (applyTaskUpdate tid ns now (ns == t.completion_state) (dictTruthy err) t) := by
    rw [find?_map_pres _ _ _ hpres, ht]
    rfl
  refine ⟨_, hfind, ?_, ?_⟩
  · rw [applyTaskUpdate_self _ _ _ _ _ t htid]
    show ((ns == t.completion_state) = true ↔ ns = t.completion_state)
    exact beq_iff_eq
  · rw [applyTaskUpdate_self _ _ _ _ _ t htid]
    show (dictTruthy err = true ↔ ∃ l, err = some l ∧ l ≠ [])
    cases err with
    | none => simp [dictTruthy]
    | some l =>
      simp only [dictTruthy, Bool.not_eq_true', Option.some.injEq]
      constructor
      · intro hne
        exact ⟨l, rfl, by simpa [List.isEmpty_iff] using hne⟩
      · rintro ⟨l2, rfl, hl2⟩
        simpa [List.isEmpty_iff] using hl2

/-- C4 witness: the amended flag property on the sample database, with
`new_state` equal to the completion state and a non-empty error. -/
theorem derived_flags_witness :
    sampleDB.tasks.find? (fun x => x.task_id == "t1") = some sampleTask ∧
    sampleDB.task_data.find? (fun x => x.task_id == "t1") = some sampleData ∧
    (∃ db', update_task_state sampleDB "t1" "done" none
        (some [("message", "boom")]) 5 = Except.ok (true, db') ∧
      ∃ t', db'.tasks.find? (fun x => x.task_id == "t1") = some t' ∧
        (t'.is_complete = true ↔ ("done" : String) = sampleTask.completion_state) ∧
        (t'.has_error = true ↔ ∃ l, (some [("message", "boom")] : Option Dict) = some l ∧
          l ≠ [])) :=
  ⟨rfl, rfl,
   derived_flags sampleDB "t1" "done" none (some [("message", "boom")]) 5
     sampleTask sampleData (by rfl) (by rfl)⟩

/-- C7: every State Event sealed by a transition gets
`exited_at = now` and `duration_seconds = now − entered_at` in whole
seconds (the `ROUND` of a difference of whole-second epochs), and this
is non-negative whenever the exit time is not earlier than the entry
time. -/
theorem sealed_duration (db : DB) (tid ns : String) (r : Option String)
    (err : Option Dict) (now : Nat) (t : TaskRow) (d : TaskDataRow)
    (e : StateEventRow)
    (ht : db.tasks.find? (fun x => x.task_id == tid) = some t)
    (hd : db.task_data.find? (fun x => x.task_id == tid) = some d)
    (he : e ∈ db.task_states) (hetid : e.task_id = tid)
    (hst : e.state_name = t.current_state) (hopen : e.exited_at = none) :
    ∃ db', update_task_state db tid ns r err now = Except.ok (true, db') ∧
      { e with
        exited_at := some now
        duration_seconds := some ((now : Int) - (e.entered_at : Int))
        result := r } ∈ db'.task_states ∧
      (e.entered_at ≤ now → 0 ≤ (now : Int) - (e.entered_at : Int)) := by
  refine ⟨_, update_ok_shape db tid ns r err now t d ht hd, ?_, ?_⟩
  · have hc : sealCond tid t.current_state e = true :=
      sealCond_eq_true.mpr ⟨hetid, hst, hopen⟩
    have hmem : (if sealCond tid t.current_state e then sealEvent now r e else e) ∈
        db.task_states.map (fun x =>
          if sealCond tid t.current_state x then sealEvent now r x else x) :=
      List.mem_map_of_mem _ he
    rw [if_pos hc] at hmem
    exact List.mem_append_left _ hmem
  · intro hle
    have : (e.entered_at : Int) ≤ (now : Int) := by exact_mod_cast hle
    omega

/-- C7 witness: sealing the sample open event (entered at 2) at time 5
records duration 3 ≥ 0. -/
theorem sealed_duration_witness :
    sampleEvent ∈ sampleDB.task_states ∧ sampleEvent.entered_at ≤ 5 ∧
    (∃ db', update_task_state sampleDB "t1" "s2" (some "r") none 5 =
        Except.ok (true, db') ∧
      { sampleEvent with
        exited_at := some 5
        duration_seconds := some ((5 : Int) - (sampleEvent.entered_at : Int))
        result := some "r" } ∈ db'.task_states ∧
      (sampleEvent.entered_at ≤ 5 → 0 ≤ (5 : Int) - (sampleEvent.entered_at : Int))) :=
  ⟨by simp [sampleDB], by decide,
   sealed_duration sampleDB "t1" "s2" (some "r") none 5 sampleTask sampleData
     sampleEvent (by rfl) (by rfl) (by simp [sampleDB]) rfl rfl rfl⟩

/-- C10: a transition carrying the empty string as result seals the
open event with `result = ""` (the UPDATE sets the column
unconditionally), but adds no key to the payload's results mapping
(`if result:` is false for the empty string), which is left exactly as
it was. -/
theorem empty_result_frame (db : DB) (tid ns : String) (err : Option Dict)
    (now : Nat) (t : TaskRow) (d : TaskDataRow) (e : StateEventRow)
    (ht : db.tasks.find? (fun x => x.task_id == tid) = some t)
    (hd : db.task_data.find? (fun x => x.task_id == tid) = some d)
    (he : e ∈ db.task_states) (hetid : e.task_id = tid)
    (hst : e.state_name = t.current_state) (hopen : e.exited_at = none) :
    ∃ db', update_task_state db tid ns (some "") err now = Except.ok (true, db') ∧
      { e with
        exited_at := some now
        duration_seconds := some ((now : Int) - (e.entered_at : Int))
        result := some "" } ∈ db'.task_states ∧
      ∃ d', db'.task_data.find? (fun x => x.task_id == tid) = some d' ∧
        d'.results = d.results := by
  have hdt : d.task_id = tid := by
    have hp := List.find?_some hd
    simpa using hp
  refine ⟨_, update_ok_shape db tid ns (some "") err now t d ht hd, ?_, ?_⟩
  · have hc : sealCond tid t.current_state e = true :=
      sealCond_eq_true.mpr ⟨hetid, hst, hopen⟩
    have hmem : (if sealCond tid t.current_state e then sealEvent now (some "") e else e) ∈
        db.task_states.map (fun x =>
          if sealCond tid t.current_state x then sealEvent now (some "") x else x) :=
      List.mem_map_of_mem _ he
    rw [if_pos hc] at hmem
    exact List.mem_append_left _ hmem
  · have hpres : ∀ x : TaskDataRow,
        ((applyDataUpdate tid err
          (if strTruthy (some "") then
            dictInsert d.results t.current_state ((some "").getD "")
           else d.results) x).task_id == tid) = (x.task_id == tid) := by
      intro x
      rw [applyDataUpdate_task_id]
    have hfind : (db.task_data.map (applyDataUpdate tid err
        (if strTruthy (some "") then
          dictInsert d.results t.current_state ((some "").getD "")
         else d.results))).find? (fun x => x.task_id == tid) =
        some (applyDataUpdate tid err
          (if strTruthy (some "") then
            dictInsert d.results t.current_state ((some "").getD "")
           else d.results) d) := by
      rw [find?_map_pres _ _ _ hpres, hd]
      rfl
    refine ⟨_, hfind, ?_⟩
    rw [applyDataUpdate_self _ _ _ d hdt]
    rfl

/-- C10 witness: the empty-string-result frame property on the sample
database. -/
theorem empty_result_frame_witness :
    sampleEvent ∈ sampleDB.task_states ∧
    (∃ db', update_task_state sampleDB "t1" "s2" (some "") none 5 =
        Except.ok (true, db') ∧
      { sampleEvent with
        exited_at := some 5
        duration_seconds := some ((5 : Int) - (sampleEvent.entered_at : Int))
        result := some "" } ∈ db'.task_states ∧
      ∃ d', db'.task_data.find? (fun x => x.task_id == "t1") = some d' ∧
        d'.results = sampleData.results) :=
  ⟨by simp [sampleDB],
   empty_result_frame sampleDB "t1" "s2" none 5 sampleTask sampleData sampleEvent
     (by rfl) (by rfl) (by simp [sampleDB]) rfl rfl rfl⟩

/-- In an invariant-satisfying database, every open event of a stored
task matches the sealing WHERE clause of a transition on that task. -/
theorem open_seal_all (db : DB) (tid : String) (t : TaskRow) (hInv : StoreInv db)
    (ht : db.tasks.find? (fun x => x.task_id == tid) = some t) :
    ∀ e ∈ db.task_states, e.task_id = tid → e.exited_at = none →
      sealCond tid t.current_state e = true := by
  have htid : t.task_id = tid := by
    have hp := List.find?_some ht
    simpa using hp
  obtain ⟨e0, he0, hname⟩ := hInv.1 t (List.mem_of_find?_eq_some ht)
  rw [htid] at he0
  intro e he h1 h2
  have hmem : e ∈ openFor db tid := mem_openFor.mpr ⟨he, h1, h2⟩
  rw [he0, List.mem_singleton] at hmem
  subst hmem
  exact sealCond_eq_true.mpr ⟨h1, hname, h2⟩

/-- C8: a transition to the task's current state (a self-loop) on an
existing task succeeds, grows the history by exactly one row, seals the
previously open event, and leaves a single open event carrying the same
state name, entered at the transition time. -/
theorem self_loop_transition (db : DB) (tid : String) (r : Option String)
    (err : Option Dict) (now : Nat) (t : TaskRow) (d : TaskDataRow)
    (hInv : StoreInv db)
    (ht : db.tasks.find? (fun x => x.task_id == tid) = some t)
    (hd : db.task_data.find? (fun x => x.task_id == tid) = some d) :
    ∃ db', update_task_state db tid t.current_state r err now = Except.ok (true, db') ∧
      db'.task_states.length = db.task_states.length + 1 ∧
      (∃ e0, openFor db tid = [e0] ∧ sealEvent now r e0 ∈ db'.task_states) ∧
      ∃ e, openFor db' tid = [e] ∧ e.state_name = t.current_state ∧
        e.entered_at = now := by
  have htid : t.task_id = tid := by
    have hp := List.find?_some ht
    simpa using hp
  have hall := open_seal_all db tid t hInv ht
  refine ⟨_, update_ok_shape db tid t.current_state r err now t d ht hd, ?_, ?_, ?_⟩
  · show ((db.task_states.map (fun e =>
        if sealCond tid t.current_state e then sealEvent now r e else e)) ++
        [newStateEvent tid t.current_state db.next_id now err]).length =
      db.task_states.length + 1
    rw [List.length_append, List.length_map]
    rfl
  · obtain ⟨e0, he0, hname⟩ := hInv.1 t (List.mem_of_find?_eq_some ht)
    rw [htid] at he0
    refine ⟨e0, he0, ?_⟩
    have he0mem : e0 ∈ openFor db tid := by
      rw [he0]
      exact List.mem_singleton_self e0
    have hfacts := mem_openFor.mp he0mem
    have hc : sealCond tid t.current_state e0 = true :=
      sealCond_eq_true.mpr ⟨hfacts.2.1, hname, hfacts.2.2⟩
    have hmem : (if sealCond tid t.current_state e0 then sealEvent now r e0 else e0) ∈
        db.task_states.map (fun x =>
          if sealCond tid t.current_state x then sealEvent now r x else x) :=
      List.mem_map_of_mem _ hfacts.1
    rw [if_pos hc] at hmem
    exact List.mem_append_left _ hmem
  · refine ⟨newStateEvent tid t.current_state db.next_id now err, ?_, rfl, rfl⟩
    show ((db.task_states.map (fun e =>
        if sealCond tid t.current_state e then sealEvent now r e else e)) ++
        [newStateEvent tid t.current_state db.next_id now err]).filter
        (fun e => e.task_id == tid && e.exited_at.isNone) =
      [newStateEvent tid t.current_state db.next_id now err]
    exact openFor_update_self db.task_states tid t.current_state r now
      (newStateEvent tid t.current_state db.next_id now err) rfl rfl hall

/-- C8 witness: a self-loop `s1 → s1` on the sample database (whose
invariant is checked directly). -/
theorem self_loop_transition_witness :
    StoreInv sampleDB ∧
    (∃ db', update_task_state sampleDB "t1" sampleTask.current_state (some "r") none 7 =
        Except.ok (true, db') ∧
      db'.task_states.length = sampleDB.task_states.length + 1 ∧
      (∃ e0, openFor sampleDB "t1" = [e0] ∧ sealEvent 7 (some "r") e0 ∈ db'.task_states) ∧
      ∃ e, openFor db' "t1" = [e] ∧ e.state_name = sampleTask.current_state ∧
        e.entered_at = 7) := by
  have hInv : StoreInv sampleDB := by
    constructor
    · intro t ht
      have : t = sampleTask := by simpa [sampleDB] using ht
      subst this
      exact ⟨sampleEvent, by decide, rfl⟩
    · intro e he hopen
      have : e = sampleEvent := by simpa [sampleDB] using he
      subst this
      exact ⟨sampleTask, by simp [sampleDB], rfl⟩
  exact ⟨hInv,
    self_loop_transition sampleDB "t1" (some "r") none 7 sampleTask sampleData hInv
      (by rfl) (by rfl)⟩

/-- A task whose payload fields are all empty, for instantiating the
"found but empty" side of the sentinel claim. -/
def emptyPayloadTask : TaskRow :=
  { task_id := "t2", workflow_id := "", workflow_name := "",
    workflow_version := "", current_state := "", completion_state := "",
    created_at := 0, updated_at := 0, creator_id := "", priority := "",
    max_retries := 0, retry_count := 0, timeout_seconds := 0,
    is_complete := false, has_error := false }

/-- The all-empty payload row of `emptyPayloadTask`. -/
def emptyPayloadData : TaskDataRow :=
  { task_id := "t2", prompt := "", context := "", parameters := [],
    results := [], next_states := [], error_details := none }

/-- A database holding one task whose payload fields are all empty. -/
def emptyPayloadDB : DB :=
  { tasks := [emptyPayloadTask], task_states := [], task_data := [emptyPayloadData],
    next_id := 0 }

/-- C6: `get_task` on an absent task returns the empty dict `{}`
(modelled `[]`), and on any existing task — even one whose payload
fields are all empty — it returns a non-empty dict (it always carries
the `tasks` columns), so the two are distinguishable. -/
theorem get_not_found_sentinel (db : DB) (tid : String) (t : TaskRow) (d : TaskDataRow)
    (ht : db.tasks.find? (fun x => x.task_id == tid) = some t)
    (hd : db.task_data.find? (fun x => x.task_id == tid) = some d) :
    get_task db tid ≠ [] ∧
    ∀ (db2 : DB) (tid2 : String),
      db2.tasks.find? (fun x => x.task_id == tid2) = none → get_task db2 tid2 = [] := by
  constructor
  · unfold get_task
    rw [ht, hd]
    simp
  · intro db2 tid2 h2
    unfold get_task
    rw [h2]

/-- C6 witness: the sentinel distinction on the task with all-empty
payload fields. -/
theorem get_not_found_sentinel_witness :
    emptyPayloadDB.tasks.find? (fun x => x.task_id == "t2") = some emptyPayloadTask ∧
    (get_task emptyPayloadDB "t2" ≠ [] ∧
     ∀ (db2 : DB) (tid2 : String),
       db2.tasks.find? (fun x => x.task_id == tid2) = none → get_task db2 tid2 = []) :=
  ⟨rfl,
   get_not_found_sentinel emptyPayloadDB "t2" emptyPayloadTask emptyPayloadData
     (by rfl) (by rfl)⟩

/-- Elements of an insertion are the inserted element or old elements. -/
theorem mem_of_mem_insertDesc (t x : TaskSummary) (l : List TaskSummary)
    (h : x ∈ insertDesc t l) : x = t ∨ x ∈ l := by
  induction l with
  | nil => simpa [insertDesc] using h
  | cons a l ih =>
    unfold insertDesc at h
    by_cases hc : a.updated_at ≤ t.updated_at
    · rw [if_pos hc] at h
      exact List.mem_cons.mp h
    · rw [if_neg hc] at h
      rcases List.mem_cons.mp h with h | h
      · exact Or.inr (List.mem_cons.mpr (Or.inl h))
      · rcases ih h with h | h
        · exact Or.inl h
        · exact Or.inr (List.mem_cons.mpr (Or.inr h))

/-- Elements of the sorted list are elements of the original list. -/
theorem mem_of_mem_sortDesc (l : List TaskSummary) (x : TaskSummary)
    (h : x ∈ sortDesc l) : x ∈ l := by
  induction l with
  | nil => simp [sortDesc] at h
  | cons a l ih =>
    unfold sortDesc at h
    rcases mem_of_mem_insertDesc a x (sortDesc l) h with h | h
    · rw [h]
      exact List.mem_cons_self a l
    · exact List.mem_cons_of_mem a (ih h)

/-- Insertion preserves the descending-by-`updated_at` order. -/
theorem pairwise_insertDesc (t : TaskSummary) (l : List TaskSummary)
    (h : l.Pairwise (fun a b => b.updated_at ≤ a.updated_at)) :
    (insertDesc t l).Pairwise (fun a b => b.updated_at ≤ a.updated_at) := by
  induction l with
  | nil => simp [insertDesc]
  | cons a l ih =>
    rw [List.pairwise_cons] at h
    obtain ⟨ha, hl⟩ := h
    unfold insertDesc
    by_cases hc : a.updated_at ≤ t.updated_at
    · rw [if_pos hc, List.pairwise_cons]
      constructor
      · intro b hb
        rcases List.mem_cons.mp hb with rfl | hb
        · exact hc
        · exact le_trans (ha b hb) hc
      · exact List.pairwise_cons.mpr ⟨ha, hl⟩
    · rw [if_neg hc, List.pairwise_cons]
      constructor
      · intro b hb
        rcases mem_of_mem_insertDesc t b l hb with rfl | hb
        · exact le_of_not_le hc
        · exact ha b hb
      · exact ih hl

/-- The summary rows come out ordered by `updated_at` descending. -/
theorem sortDesc_pairwise (l : List TaskSummary) :
    (sortDesc l).Pairwise (fun a b => b.updated_at ≤ a.updated_at) := by
  induction l with
  | nil => simp [sortDesc]
  | cons a l ih => exact pairwise_insertDesc a (sortDesc l) ih

/-- What a true WHERE clause of `list_tasks` says about a row: each
filter constrains the row only when it is supplied and non-empty. -/
theorem filterPred_true {wf st : Option String} {u : TaskRow}
    (h : filterPred wf st u = true) :
    (∀ w, wf = some w → w ≠ "" → u.workflow_id = w) ∧
    (∀ x, st = some x → x ≠ "" → u.current_state = x) := by
  unfold filterPred at h
  rw [Bool.and_eq_true] at h
  constructor
  · intro w hw hne
    have h1 := h.1
    rw [hw] at h1
    change (if (w == "") = true then true else (u.workflow_id == w)) = true at h1
    rw [if_neg (by simp [hne])] at h1
    exact eq_of_beq h1
  · intro x hx hne
    have h2 := h.2
    rw [hx] at h2
    change (if (x == "") = true then true else (u.current_state == x)) = true at h2
    rw [if_neg (by simp [hne])] at h2
    exact eq_of_beq h2

/-- C9 counterexample: supplying the workflow filter as the empty
string, `list_tasks` ignores it (`if workflow_id:` is falsy) and
returns the sample task although its `workflow_id` (`wfA`) does not
match the supplied filter value. -/
theorem list_tasks_cex :
    (list_tasks sampleDB (some "") none 100).map (fun s => s.workflow_id) = ["wfA"] ∧
    ("wfA" : String) ≠ "" :=
  ⟨rfl, by decide⟩

/-- C9 (amended): for every stored set of tasks, every combination of
filters and every non-negative limit, `list_tasks` returns only summary
projections of stored tasks that match every supplied *non-empty*
filter (a filter supplied as the empty string is treated as absent),
ordered by `updated_at` descending and truncated to at most `limit`
entries. -/
theorem list_tasks_spec (db : DB) (wf st : Option String) (limit : Int)
    (hl : 0 ≤ limit) :
    (∀ s ∈ list_tasks db wf st limit, ∃ u, u ∈ db.tasks ∧ s = summarize u ∧
      (∀ w, wf = some w → w ≠ "" → u.workflow_id = w) ∧
      (∀ x, st = some x → x ≠ "" → u.current_state = x)) ∧
    (list_tasks db wf st limit).Pairwise (fun a b => b.updated_at ≤ a.updated_at) ∧
    (list_tasks db wf st limit).length ≤ limit.toNat := by
  have hnn : ¬ limit < 0 := by omega
  unfold list_tasks
  rw [if_neg hnn]
  refine ⟨?_, ?_, ?_⟩
  · intro s hs
    have hs2 := List.mem_of_mem_take hs
    have hs3 := mem_of_mem_sortDesc _ _ hs2
    obtain ⟨u, hu, rfl⟩ := List.mem_map.mp hs3
    have hu2 := List.mem_filter.mp hu
    have hft := filterPred_true hu2.2
    exact ⟨u, hu2.1, rfl, hft.1, hft.2⟩
  · exact (sortDesc_pairwise _).sublist (List.take_sublist _ _)
  · rw [List.length_take]
    exact min_le_left _ _

/-- C9 witness: the filtering/ordering/limit property instantiated on
the sample database with a non-empty workflow filter and limit 100. -/
theorem list_tasks_spec_witness :
    ((0 : Int) ≤ 100) ∧
    ((∀ s ∈ list_tasks sampleDB (some "wfA") none 100, ∃ u, u ∈ sampleDB.tasks ∧
        s = summarize u ∧
        (∀ w, (some "wfA" : Option String) = some w → w ≠ "" → u.workflow_id = w) ∧
        (∀ x, (none : Option String) = some x → x ≠ "" → u.current_state = x)) ∧
      (list_tasks sampleDB (some "wfA") none 100).Pairwise
        (fun a b => b.updated_at ≤ a.updated_at) ∧
      (list_tasks sampleDB (some "wfA") none 100).length ≤ (100 : Int).toNat) :=
  ⟨by decide, list_tasks_spec sampleDB (some "wfA") none 100 (by decide)⟩
